import Mathlib

/-!
Verification of the request-scoped telemetry enrichment core of
`go-otel-example` (Go).  The definitions below are a shallow embedding of
the source files:

* `internal/metrics/metrics.go` — context-value based metric attributes
  (`AddMeretricAttributes` / `GetMeretricAttributes`) and the
  `MetricsMiddleware` that emits one counter increment and one histogram
  observation per request;
* `internal/middleware/logging.go` — the mutex-guarded `LoggingContext`
  store, its `InitializeLoggingContext` / `GetLoggingContext` propagator
  and the `LoggingMiddleware` emitter;
* `internal/middleware/tracing.go` — the `TracingMiddleware` enrichment
  stage;
* `internal/handlers/hello.go` — the example `HelloHandler`;
* the mutex-guarded `MetricContext` store with `AddAttribute`,
  `GetAllAttributes` and `InitializeMetricsContext` from the unnamed
  middleware source file.

Modelling conventions:

* Go `context.Context` is an immutable association list searched from the
  innermost (most recently added) entry, exactly like `context.WithValue`
  chains.  The two distinct unexported Go key types (`metrics.key` and
  `middleware.key`/`contextKey`) are distinct constructors of `CtxKey`,
  so cross-package collisions are impossible, as in Go.
* Go maps guarded by a mutex (`LoggingContext.attributes`,
  `MetricContext.attributes`) are association lists with unique keys;
  `mapInsert` is Go's `m[k] = v` on such a map.  Each locked operation is
  atomic, so a concurrent execution of `Add` calls is an arbitrary
  interleaving, i.e. an arbitrary permutation of the calls.
* Pointers to stores are indices into an explicit `Heap`; handlers are
  state transformers `Request → St → Except String St`, where an
  `Except.error` is a Go runtime panic (e.g. a nil-pointer dereference)
  and `St` carries everything a stage can observe after the handler
  returns: the heap, the chi route pattern recorded by the router, the
  captured status/byte count of the wrapped response writer, a monotone
  clock, and the emitted telemetry signals.
-/

/-- The closed set of scalar attribute values used by the program
(`attribute.Value` for metrics, `interface{}` fields for logging). -/
inductive AttrValue
  | str (s : String)
  | int (i : Int)
  | boolv (b : Bool)
deriving DecidableEq, Repr

/-- `attribute.KeyValue` from the OpenTelemetry API: a key/value pair. -/
structure KeyValue where
  key : String
  value : AttrValue
deriving DecidableEq, Repr

/-- Log severity, mirroring the `zap` levels the code switches on. -/
inductive LogLevel
  | info
  | warn
  | error
deriving DecidableEq, Repr

/-- Context keys.  Go uses one unexported key type per package
(`metrics.key`, `middleware.key`, `middleware.contextKey`), so the keys
of different channels can never collide; we mirror that with distinct
constructors. -/
inductive CtxKey
  | metricAttributesKey
  | middlewareMetricKey
  | loggingContextKey
  | logLevelKey
  | requestIDKey
deriving DecidableEq, Repr

/-- Values storable in a context: a `[]attribute.KeyValue` slice
(`metrics.AddMeretricAttributes`), a pointer to a `LoggingContext` or
`MetricContext` store (heap index), a log level, or a plain string
(request id). -/
inductive CtxVal
  | attrList (attrs : List KeyValue)
  | logCtxRef (i : Nat)
  | metricCtxRef (i : Nat)
  | levelVal (l : LogLevel)
  | strVal (s : String)
deriving DecidableEq, Repr

/-- A Go `context.Context`: derived contexts prepend, lookup returns the
innermost binding, exactly as a `context.WithValue` chain resolves. -/
abbrev Context := List (CtxKey × CtxVal)

/-- `ctx.Value(k)`: innermost binding for `k`, if any. -/
def ctxValue (ctx : Context) (k : CtxKey) : Option CtxVal :=
  match ctx with
  | [] => none
  | (k1, v) :: rest => if k1 = k then some v else ctxValue rest k

/-- `context.WithValue(ctx, k, v)`: a derived context with one more
binding. -/
def ctxWithValue (ctx : Context) (k : CtxKey) (v : CtxVal) : Context :=
  (k, v) :: ctx

/-- The contents of one mutex-guarded Go map from attribute key to
value (the body of a `LoggingContext` or `MetricContext`). -/
abbrev Store := List (String × AttrValue)

/-- Go map assignment `m[k] = v` on a map with unique keys: replace the
binding of `k` in place, or append a fresh binding. -/
def mapInsert (m : Store) (k : String) (v : AttrValue) : Store :=
  match m with
  | [] => [(k, v)]
  | (k1, v1) :: rest =>
      if k1 = k then (k, v) :: rest else (k1, v1) :: mapInsert rest k v

/-- Go map lookup `m[k]`. -/
def storeLookup (m : Store) (k : String) : Option AttrValue :=
  match m with
  | [] => none
  | (k1, v) :: rest => if k1 = k then some v else storeLookup rest k

/-- The keys of a store, in insertion order. -/
def keysOf (m : Store) : List String := m.map Prod.fst

/-- The Go-map invariant: every key occurs at most once. -/
def keysUnique (m : Store) : Prop := (keysOf m).Nodup

instance (m : Store) : Decidable (keysUnique m) := by
  unfold keysUnique; infer_instance

/-! ### metrics package (`internal/metrics/metrics.go`) -/

/-- `metrics.AddMeretricAttributes(ctx, attrs...)` (metrics.go:142-146):
stores the attribute slice under the metrics-package context key and
returns the derived context. -/
def AddMeretricAttributes (ctx : Context) (attrs : List KeyValue) : Context :=
  ctxWithValue ctx CtxKey.metricAttributesKey (CtxVal.attrList attrs)

/-- `metrics.GetMeretricAttributes(ctx)` (metrics.go:168-175): the slice
stored under the metrics-package key, or `nil` (here `[]`) when the type
assertion fails; it never creates or attaches anything. -/
def GetMeretricAttributes (ctx : Context) : List KeyValue :=
  match ctxValue ctx CtxKey.metricAttributesKey with
  | some (CtxVal.attrList attrs) => attrs
  | _ => []

/-! ### LoggingContext store (`internal/middleware/logging.go`) -/

/-- `(*LoggingContext).AddAttribute(key, value)` (logging.go:119-127):
takes the write lock and performs the map assignment.  Note: there is no
empty-key check in this method. -/
def LoggingContext.AddAttribute (lc : Store) (k : String) (v : AttrValue) : Store :=
  mapInsert lc k v

/-- `(*LoggingContext).GetAttribute(key)` (logging.go:131-139): point
lookup returning `(value, ok)`. -/
def LoggingContext.GetAttribute (lc : Store) (k : String) :
    Option AttrValue × Bool :=
  match storeLookup lc k with
  | some v => (some v, true)
  | none => (none, false)

/-- `(*LoggingContext).IterateAttributes(f)` (logging.go:142-152): the
sequence of key/value pairs handed to the callback under the read
lock. -/
def LoggingContext.IterateAttributes (lc : Store) : List (String × AttrValue) :=
  lc

/-! ### MetricContext store (unnamed middleware file, mutex variant) -/

/-- `(*MetricContext).AddAttribute(attr)` (part_000:326-340): returns
immediately when `attr.Key == ""`, otherwise performs the locked map
assignment. -/
def MetricContext.AddAttribute (mc : Store) (attr : KeyValue) : Store :=
  if attr.key = "" then mc else mapInsert mc attr.key attr.value

/-- `(*MetricContext).GetAllAttributes()` (part_000:343-360): a snapshot
of the map as a slice of `attribute.KeyValue`. -/
def MetricContext.GetAllAttributes (mc : Store) : List KeyValue :=
  mc.map (fun p => KeyValue.mk p.1 p.2)

/-! ### Heap of per-request stores -/

/-- All live stores of a request: `*LoggingContext` and `*MetricContext`
pointers are indices into these lists. -/
structure Heap where
  logStores : List Store
  metricStores : List Store
deriving DecidableEq, Repr

def Heap.logGet (h : Heap) (i : Nat) : Option Store := h.logStores.get? i

def Heap.metricGet (h : Heap) (i : Nat) : Option Store := h.metricStores.get? i

/-- Write back logging store `i` (the Go code mutates it through the
pointer). -/
def Heap.logSet (h : Heap) (i : Nat) (s : Store) : Heap :=
  { h with logStores := h.logStores.set i s }

/-- `loggingContext.AddAttribute(k, v)` performed through a (valid)
pointer into the heap.  A dangling index leaves the heap unchanged; it is
unreachable from the code, which only hands out indices of allocated
stores. -/
def heapAddLogAttr (h : Heap) (i : Nat) (k : String) (v : AttrValue) : Heap :=
  match h.logGet i with
  | some s => h.logSet i (LoggingContext.AddAttribute s k v)
  | none => h

/-! ### Propagators -/

/-- `middleware.GetLoggingContext(ctx)` (logging.go:154-161): the
`*LoggingContext` stored under `LoggingContextKey` when the type
assertion succeeds and the pointer is non-nil, else `nil`.  It is a pure
reader: its Go signature returns no derived context, so it can neither
construct nor attach a store. -/
def GetLoggingContext (ctx : Context) : Option Nat :=
  match ctxValue ctx CtxKey.loggingContextKey with
  | some (CtxVal.logCtxRef i) => some i
  | _ => none

/-- `middleware.GetMetricsContext(ctx)` (part_000:377-384): the
`*MetricContext` under the middleware-package key, or `nil`. -/
def GetMetricsContext (ctx : Context) : Option Nat :=
  match ctxValue ctx CtxKey.middlewareMetricKey with
  | some (CtxVal.metricCtxRef i) => some i
  | _ => none

/-- `middleware.InitializeLoggingContext` (logging.go:164-176), the
context-manipulating core of the middleware: when no value sits under
`LoggingContextKey` a new empty `LoggingContext` is allocated and a
derived context carrying it is passed on; otherwise request and context
are forwarded unchanged. -/
def InitializeLoggingContext (ctx : Context) (h : Heap) : Context × Heap :=
  if (ctxValue ctx CtxKey.loggingContextKey).isSome then (ctx, h)
  else
    (ctxWithValue ctx CtxKey.loggingContextKey (CtxVal.logCtxRef h.logStores.length),
     { h with logStores := h.logStores ++ [[]] })

/-- `middleware.InitializeMetricsContext` (part_000:362-375): same
guarded allocation for the `MetricContext` store. -/
def InitializeMetricsContext (ctx : Context) (h : Heap) : Context × Heap :=
  if (ctxValue ctx CtxKey.middlewareMetricKey).isSome then (ctx, h)
  else
    (ctxWithValue ctx CtxKey.middlewareMetricKey (CtxVal.metricCtxRef h.metricStores.length),
     { h with metricStores := h.metricStores ++ [[]] })

/-! ### Pipeline model -/

/-- One emitted metric signal: `counter.Add(ctx, 1, attrs)` or
`histogram.Record(ctx, duration, attrs)` (durations are clock
differences). -/
inductive MetricEvent
  | counterAdd (value : Int) (attrs : List KeyValue)
  | histogramRecord (duration : Int) (attrs : List KeyValue)
deriving DecidableEq, Repr

/-- The attribute set a metric event carries. -/
def eventAttrs : MetricEvent → List KeyValue
  | MetricEvent.counterAdd _ a => a
  | MetricEvent.histogramRecord _ a => a

/-- First attribute with the given key in a `[]attribute.KeyValue`. -/
def attrsFind (l : List KeyValue) (k : String) : Option AttrValue :=
  match l with
  | [] => none
  | kv :: rest => if kv.key = k then some kv.value else attrsFind rest k

/-- The single structured record `LoggingMiddleware` emits per request:
the fixed zap fields of logging.go:47-57 plus the flattened store
attributes. -/
structure LogRecord where
  requestId : String
  method : String
  url : String
  path : String
  status : Nat
  size : Nat
  duration : Int
  remoteAddr : String
  userAgent : String
  extraFields : List (String × AttrValue)
  level : LogLevel
deriving DecidableEq, Repr

/-- The immutable part of an `*http.Request` the middlewares read, plus
its context.  `r.WithContext` swaps only `ctx`. -/
structure Request where
  method : String
  rawPath : String
  url : String
  remoteAddr : String
  userAgent : String
  ctx : Context
deriving DecidableEq, Repr

/-- Observable mutable state threaded through one request: the store
heap, the chi `RouteContext` pattern (shared mutable object, `""` until
the router commits a match), the wrapped response writer's captured
status (0 = not yet written) and byte count, a monotone wall clock, and
the telemetry emitted so far. -/
structure St where
  heap : Heap
  chiPattern : String
  status : Nat
  bytes : Nat
  clock : Nat
  events : List MetricEvent
  logs : List LogRecord
  warnings : List String
deriving DecidableEq, Repr

/-- An `http.Handler`: consumes the request and the shared state;
`Except.error` is an in-flight Go panic (which unwinds through the
chain). -/
abbrev Handler := Request → St → Except String St

/-- The Go runtime's message for a nil-pointer dereference panic. -/
def nilDerefMsg : String :=
  "runtime error: invalid memory address or nil pointer dereference"

/-- `WrapResponseWriter.WriteHeader`: one-shot status capture — the first
written code sticks, later attempts are ignored. -/
def wwWriteHeader (st : St) (code : Nat) : St :=
  if st.status = 0 then { st with status := code } else st

/-- `WrapResponseWriter.Write`: defaults the status to 200 when the
handler never called `WriteHeader`, and accumulates bytes written. -/
def wwWrite (st : St) (n : Nat) : St :=
  let st1 := if st.status = 0 then { st with status := 200 } else st
  { st1 with bytes := st1.bytes + n }

/-- `middleware.GetReqID(ctx)` (chi): the request id string, `""` when
absent. -/
def getReqID (ctx : Context) : String :=
  match ctxValue ctx CtxKey.requestIDKey with
  | some (CtxVal.strVal s) => s
  | _ => ""

/-- The default attribute set `MetricsMiddleware` builds
(metrics.go:260-264). -/
def metricsDefaultAttrs (method routePattern : String) (status : Nat) :
    List KeyValue :=
  [KeyValue.mk "http.method" (AttrValue.str method),
   KeyValue.mk "http.path" (AttrValue.str routePattern),
   KeyValue.mk "http.status_code" (AttrValue.int (Int.ofNat status))]

/-- `MetricsMiddleware` (metrics.go:236-274): wraps the response writer,
runs the rest of the chain, then — on return — resolves the chi route
pattern (falling back to the raw path), computes the elapsed duration,
reads the custom attributes from ITS OWN request context via
`metrics.GetMeretricAttributes`, merges them after the defaults, and
emits exactly one counter increment of 1 and one histogram observation,
both with the merged attribute set. -/
def MetricsMiddleware (next : Handler) : Handler := fun req st =>
  match next req st with
  | Except.error e => Except.error e
  | Except.ok st1 =>
      let routePattern := if st1.chiPattern = "" then req.rawPath else st1.chiPattern
      let duration : Int := (st1.clock : Int) - (st.clock : Int)
      let customAttrs := GetMeretricAttributes req.ctx
      let allAttrs := metricsDefaultAttrs req.method routePattern st1.status ++ customAttrs
      Except.ok { st1 with events := st1.events ++
        [MetricEvent.counterAdd 1 allAttrs,
         MetricEvent.histogramRecord duration allAttrs] }

/-- The warning `LoggingMiddleware` logs when the store is absent
(logging.go:71). -/
def missingLoggingCtxWarning : String := "LoggingContext not found in request context"

/-- `LoggingMiddleware` (logging.go:23-94): after the chain returns,
assembles one structured record from the fixed fields, flattens the
`LoggingContext` store into extra fields when it is present, logs a
warning and proceeds with only the fixed fields when it is not, and
emits the record at the severity stored in the context (default
informational). -/
def LoggingMiddleware (next : Handler) : Handler := fun req st =>
  match next req st with
  | Except.error e => Except.error e
  | Except.ok st1 =>
      let routePattern := if st1.chiPattern = "" then req.rawPath else st1.chiPattern
      let duration : Int := (st1.clock : Int) - (st.clock : Int)
      let lcOpt := GetLoggingContext req.ctx
      let extra := match lcOpt with
        | some i => LoggingContext.IterateAttributes ((st1.heap.logGet i).getD [])
        | none => []
      let entry : LogRecord :=
        { requestId := getReqID req.ctx
          method := req.method
          url := req.url
          path := routePattern
          status := st1.status
          size := st1.bytes
          duration := duration
          remoteAddr := req.remoteAddr
          userAgent := req.userAgent
          extraFields := extra
          level := match ctxValue req.ctx CtxKey.logLevelKey with
            | some (CtxVal.levelVal LogLevel.error) => LogLevel.error
            | some (CtxVal.levelVal LogLevel.warn) => LogLevel.warn
            | _ => LogLevel.info }
      Except.ok { st1 with
        logs := st1.logs ++ [entry]
        warnings := if lcOpt.isNone
          then st1.warnings ++ [missingLoggingCtxWarning]
          else st1.warnings }

/-- `TracingMiddleware` (tracing.go:11-46): before the chain continues it
fetches the `LoggingContext` and writes the active trace/span ids into
it.  `GetLoggingContext` (the definition in logging.go) returns `nil`
when the store is absent, and tracing.go calls `AddAttribute` on the
result without a nil check, so an absent store makes the method
dereference a nil receiver (`lc.mu.Lock()`): a runtime panic.  The
post-return work (annotating the span and renaming it) touches only the
span, which this state model does not observe. -/
def TracingMiddleware (traceID : String) (spanID : AttrValue)
    (next : Handler) : Handler := fun req st =>
  match GetLoggingContext req.ctx with
  | none => Except.error nilDerefMsg
  | some i =>
      let h1 := heapAddLogAttr st.heap i "trace_id" (AttrValue.str traceID)
      let h2 := heapAddLogAttr h1 i "span_id" spanID
      next req { st with heap := h2 }

/-- `InitializeLoggingContext` as a middleware stage (logging.go:164-176):
derives the context via the propagator and forwards. -/
def InitializeLoggingContextMW (next : Handler) : Handler := fun req st =>
  let p := InitializeLoggingContext req.ctx st.heap
  next { req with ctx := p.1 } { st with heap := p.2 }

/-- Does a raw path match the single registered route `/hello/{id}`
(one non-empty segment after `/hello/`)?  Modelled from the chi router's
documented matching for the route table of `cmd/myapp/main.go`. -/
def matchesHelloRoute (p : String) : Bool :=
  match p.data with
  | '/' :: 'h' :: 'e' :: 'l' :: 'l' :: 'o' :: '/' :: rest =>
      (!rest.isEmpty) && rest.all (fun c => !(c = '/'))
  | _ => false

/-- The chi router for the route table of main.go: on a match it records
the template `/hello/{id}` in the shared `RouteContext` and dispatches;
otherwise it writes a 404 and records no pattern. -/
def chiRouterHello (h : Handler) : Handler := fun req st =>
  if matchesHelloRoute req.rawPath then
    h req { st with chiPattern := "/hello/{id}" }
  else
    Except.ok (wwWriteHeader st 404)

/-- `handlers.HelloHandler` (hello.go:14-72).  The span work is pure
tracer interaction except for the three simulated latencies
(100+50+150 ms), which advance the clock.  The handler then:
fetches the `LoggingContext` (nil receiver panic when absent, as for the
tracing stage, hello.go:59-61), adds `user_id=12345` and
`custom_key="custom_value"` to it, derives a context with the info log
level and with the metric attributes `user_role`/`custom` via
`metrics.AddMeretricAttributes` — but `r = r.WithContext(ctx)` rebinds
only the handler's local variable, so the derived context (`ctx2` below)
is dropped on return — and finally writes a 200 status and the 21-byte
body. -/
def HelloHandler : Handler := fun req st =>
  match GetLoggingContext req.ctx with
  | none => Except.error nilDerefMsg
  | some i =>
      let st1 := { st with clock := st.clock + 300 }
      let h1 := heapAddLogAttr st1.heap i "user_id" (AttrValue.int 12345)
      let h2 := heapAddLogAttr h1 i "custom_key" (AttrValue.str "custom_value")
      let ctx1 := ctxWithValue req.ctx CtxKey.logLevelKey (CtxVal.levelVal LogLevel.info)
      let ctx2 := AddMeretricAttributes ctx1
        [KeyValue.mk "user_role" (AttrValue.str "admin"),
         KeyValue.mk "custom" (AttrValue.str "example")]
      let _ := ctx2
      Except.ok (wwWrite (wwWriteHeader { st1 with heap := h2 } 200) 21)

/-- The middleware chain of `cmd/myapp/main.go` around the hello route:
InitializeLoggingContext → TracingMiddleware → MetricsMiddleware →
LoggingMiddleware → router → HelloHandler (correlation-id, real-ip and
recovery layers are external collaborators with no effect on the
modelled state). -/
def helloApp (traceID : String) (spanID : AttrValue) : Handler :=
  InitializeLoggingContextMW
    (TracingMiddleware traceID spanID
      (MetricsMiddleware
        (LoggingMiddleware
          (chiRouterHello HelloHandler))))

/-- The initial per-request state. -/
def st0 : St :=
  { heap := { logStores := [], metricStores := [] }
    chiPattern := ""
    status := 0
    bytes := 0
    clock := 0
    events := []
    logs := []
    warnings := [] }

/-- The request of the spec's scenario: `GET /hello/42`, fresh context. -/
def c1req : Request :=
  { method := "GET"
    rawPath := "/hello/42"
    url := "/hello/42"
    remoteAddr := "127.0.0.1:51234"
    userAgent := "curl/8.5.0"
    ctx := [] }

/-- The metric events the deployed chain emits for the scenario request. -/
def helloRunEvents : List MetricEvent :=
  match helloApp "trace-1" (AttrValue.str "span-1") c1req st0 with
  | Except.ok st => st.events
  | Except.error _ => []

/-- The attribute set those events actually carry: the three defaults
only. -/
def c1defaults : List KeyValue :=
  metricsDefaultAttrs "GET" "/hello/{id}" 200

/-! ### Lemmas about the map model -/

theorem storeLookup_mapInsert_self (m : Store) (k : String) (v : AttrValue) :
    storeLookup (mapInsert m k v) k = some v := by
  induction m with
  | nil => simp [mapInsert, storeLookup]
  | cons hd tl ih =>
      by_cases hk : hd.1 = k
      · simp [mapInsert, storeLookup, hk]
      · simp [mapInsert, storeLookup, hk, ih]

theorem storeLookup_mapInsert_ne (m : Store) (k k1 : String) (v : AttrValue)
    (h : k1 ≠ k) : storeLookup (mapInsert m k v) k1 = storeLookup m k1 := by
  have hk1k : ¬ k = k1 := fun hh => h hh.symm
  induction m with
  | nil =>
      simp only [mapInsert, storeLookup]
      rw [if_neg hk1k]
  | cons hd tl ih =>
      obtain ⟨k2, v2⟩ := hd
      by_cases hk : k2 = k
      · subst hk
        simp only [mapInsert, if_pos rfl, storeLookup]
        rw [if_neg hk1k, if_neg hk1k]
      · simp only [mapInsert, if_neg hk, storeLookup]
        by_cases hk2 : k2 = k1
        · rw [if_pos hk2, if_pos hk2]
        · rw [if_neg hk2, if_neg hk2, ih]

theorem mem_keysOf_mapInsert (m : Store) (k k1 : String) (v : AttrValue) :
    k1 ∈ keysOf (mapInsert m k v) ↔ k1 ∈ keysOf m ∨ k1 = k := by
  induction m with
  | nil => simp [mapInsert, keysOf, eq_comm]
  | cons hd tl ih =>
      by_cases hk : hd.1 = k
      · subst hk
        simp [mapInsert, keysOf, eq_comm]
        tauto
      · simp [mapInsert, keysOf, hk] at ih ⊢
        tauto

theorem keysUnique_mapInsert (m : Store) (k : String) (v : AttrValue)
    (h : keysUnique m) : keysUnique (mapInsert m k v) := by
  induction m with
  | nil => simp [mapInsert, keysUnique, keysOf]
  | cons hd tl ih =>
      unfold keysUnique keysOf at h
      simp only [List.map_cons, List.nodup_cons] at h
      by_cases hk : hd.1 = k
      · subst hk
        unfold keysUnique keysOf
        simpa [mapInsert] using h
      · have htl := ih h.2
        unfold keysUnique keysOf at htl ⊢
        simp only [mapInsert, hk, if_false, List.map_cons, List.nodup_cons]
        refine ⟨?_, htl⟩
        intro hmem
        rcases (mem_keysOf_mapInsert tl k hd.1 v).1 hmem with h1 | h1
        · exact h.1 (by simpa [keysOf] using h1)
        · exact hk h1

theorem filter_key_eq_nil (m : Store) (k : String) (h : k ∉ keysOf m) :
    m.filter (fun p => p.1 = k) = [] := by
  induction m with
  | nil => simp
  | cons hd tl ih =>
      simp only [keysOf, List.map_cons, List.mem_cons, not_or] at h
      have hne : ¬ hd.1 = k := fun hh => h.1 hh.symm
      simp [List.filter, hne, ih (by simpa [keysOf] using h.2)]

theorem filter_key_mapInsert (m : Store) (k : String) (v : AttrValue)
    (h : keysUnique m) :
    (mapInsert m k v).filter (fun p => p.1 = k) = [(k, v)] := by
  induction m with
  | nil => simp [mapInsert]
  | cons hd tl ih =>
      unfold keysUnique keysOf at h
      simp only [List.map_cons, List.nodup_cons] at h
      by_cases hk : hd.1 = k
      · subst hk
        have : tl.filter (fun p => p.1 = hd.1) = [] :=
          filter_key_eq_nil tl hd.1 (by simpa [keysOf] using h.1)
        simp [mapInsert, List.filter, this]
      · simp [mapInsert, hk, List.filter, ih h.2]

theorem filter_key_length_le_one (m : Store) (k : String) (h : keysUnique m) :
    (m.filter (fun p => p.1 = k)).length ≤ 1 := by
  induction m with
  | nil => simp
  | cons hd tl ih =>
      unfold keysUnique keysOf at h
      simp only [List.map_cons, List.nodup_cons] at h
      by_cases hk : hd.1 = k
      · subst hk
        have : tl.filter (fun p => p.1 = hd.1) = [] :=
          filter_key_eq_nil tl hd.1 (by simpa [keysOf] using h.1)
        simp [List.filter, this]
      · simpa [List.filter, hk] using ih h.2

theorem mem_of_storeLookup (m : Store) (k : String) (v : AttrValue)
    (h : storeLookup m k = some v) : (k, v) ∈ m := by
  induction m with
  | nil => simp [storeLookup] at h
  | cons hd tl ih =>
      obtain ⟨k1, v1⟩ := hd
      by_cases hk : k1 = k
      · subst hk
        simp only [storeLookup, if_pos] at h
        have hv : v1 = v := by simpa using h
        subst hv
        exact List.mem_cons_self _ _
      · simp only [storeLookup, if_neg hk] at h
        exact List.mem_cons_of_mem _ (ih h)

theorem getAll_filter (s : Store) (k : String) :
    (MetricContext.GetAllAttributes s).filter (fun kv => kv.key = k)
      = (s.filter (fun p => p.1 = k)).map (fun p => KeyValue.mk p.1 p.2) := by
  induction s with
  | nil => rfl
  | cons hd tl ih =>
      obtain ⟨k1, v1⟩ := hd
      by_cases hk : k1 = k
      · simp only [MetricContext.GetAllAttributes, List.map_cons,
          List.filter_cons] at ih ⊢
        simp [hk, ih]
      · simp only [MetricContext.GetAllAttributes, List.map_cons,
          List.filter_cons] at ih ⊢
        simp [hk, ih]

/-! ### Lemmas about folds of `Add` calls -/

theorem storeLookup_foldl_of_not_mem (σ : List (String × AttrValue))
    (acc : Store) (k : String) (h : ∀ p ∈ σ, p.1 ≠ k) :
    storeLookup (σ.foldl (fun m q => mapInsert m q.1 q.2) acc) k
      = storeLookup acc k := by
  induction σ generalizing acc with
  | nil => rfl
  | cons q t ih =>
      have hq : q.1 ≠ k := h q (List.mem_cons_self q t)
      have ht : ∀ p ∈ t, p.1 ≠ k := fun p hp => h p (List.mem_cons_of_mem q hp)
      calc storeLookup ((q :: t).foldl (fun m q => mapInsert m q.1 q.2) acc) k
          = storeLookup (t.foldl (fun m q => mapInsert m q.1 q.2) (mapInsert acc q.1 q.2)) k := rfl
        _ = storeLookup (mapInsert acc q.1 q.2) k := ih (mapInsert acc q.1 q.2) ht
        _ = storeLookup acc k := storeLookup_mapInsert_ne acc q.1 k q.2 (fun hh => hq hh.symm)

theorem storeLookup_foldl_of_mem (σ : List (String × AttrValue))
    (acc : Store) (k : String) (v : AttrValue)
    (hnd : (σ.map Prod.fst).Nodup) (hmem : (k, v) ∈ σ) :
    storeLookup (σ.foldl (fun m q => mapInsert m q.1 q.2) acc) k = some v := by
  induction σ generalizing acc with
  | nil => simp at hmem
  | cons q t ih =>
      simp only [List.map_cons, List.nodup_cons] at hnd
      rcases List.mem_cons.1 hmem with hq | ht
      · subst hq
        have hnot : ∀ p ∈ t, p.1 ≠ k := by
          intro p hp hcontra
          have hmm : p.1 ∈ List.map Prod.fst t := List.mem_map_of_mem Prod.fst hp
          rw [hcontra] at hmm
          exact hnd.1 hmm
        calc storeLookup (((k, v) :: t).foldl (fun m q => mapInsert m q.1 q.2) acc) k
            = storeLookup (t.foldl (fun m q => mapInsert m q.1 q.2) (mapInsert acc k v)) k := rfl
          _ = storeLookup (mapInsert acc k v) k := storeLookup_foldl_of_not_mem t _ k hnot
          _ = some v := storeLookup_mapInsert_self acc k v
      · exact ih (mapInsert acc q.1 q.2) hnd.2 ht

theorem foldl_metricAdd_eq_foldl_mapInsert (σ : List (String × AttrValue))
    (acc : Store) (h : ∀ p ∈ σ, p.1 ≠ "") :
    σ.foldl (fun m q => MetricContext.AddAttribute m (KeyValue.mk q.1 q.2)) acc
      = σ.foldl (fun m q => mapInsert m q.1 q.2) acc := by
  induction σ generalizing acc with
  | nil => rfl
  | cons q t ih =>
      have hq : q.1 ≠ "" := h q (List.mem_cons_self q t)
      have ht : ∀ p ∈ t, p.1 ≠ "" := fun p hp => h p (List.mem_cons_of_mem q hp)
      calc (q :: t).foldl (fun m q => MetricContext.AddAttribute m (KeyValue.mk q.1 q.2)) acc
          = t.foldl (fun m q => MetricContext.AddAttribute m (KeyValue.mk q.1 q.2))
              (MetricContext.AddAttribute acc (KeyValue.mk q.1 q.2)) := rfl
        _ = t.foldl (fun m q => MetricContext.AddAttribute m (KeyValue.mk q.1 q.2))
              (mapInsert acc q.1 q.2) := by
              rw [MetricContext.AddAttribute, if_neg hq]
        _ = t.foldl (fun m q => mapInsert m q.1 q.2) (mapInsert acc q.1 q.2) :=
              ih (mapInsert acc q.1 q.2) ht

theorem foldl_logAdd_eq_foldl_mapInsert (σ : List (String × AttrValue))
    (acc : Store) :
    σ.foldl (fun m q => LoggingContext.AddAttribute m q.1 q.2) acc
      = σ.foldl (fun m q => mapInsert m q.1 q.2) acc := rfl

/-! ### Claims C3, C4, C5, C6, C9, C10 -/

/-- C3, counterexample: the claim says that for EVERY attribute store an
`Add` with an empty key is a no-op, but `LoggingContext.AddAttribute`
(logging.go:119-127) has no empty-key guard: on an empty store it stores
the binding, changing the store's contents. -/
theorem C3_counterexample :
    LoggingContext.AddAttribute [] "" (AttrValue.str "x")
        = [("", AttrValue.str "x")] ∧
    decide (LoggingContext.AddAttribute [] "" (AttrValue.str "x") = []) = false := by
  constructor <;> rfl

/-- C3, amended: `MetricContext.AddAttribute` drops an empty key, leaving
the store exactly unchanged (and surfaces no error: the method returns
normally); `LoggingContext.AddAttribute` instead stores the empty key
like any other key. -/
theorem C3_empty_key_amended (mc lc : Store) (v : AttrValue) :
    MetricContext.AddAttribute mc (KeyValue.mk "" v) = mc ∧
    storeLookup (LoggingContext.AddAttribute lc "" v) "" = some v := by
  constructor
  · simp [MetricContext.AddAttribute]
  · exact storeLookup_mapInsert_self lc "" v

/-- C4: both initializers are idempotent.  When the incoming context has
no binding under the store key, a fresh empty store is allocated and a
derived context carrying it is passed on; when a binding is present the
input context and heap are forwarded unchanged; hence running an
initializer on its own output changes nothing, and exactly one store
survives however many initialization layers run. -/
theorem C4_initialize_idempotent (ctx : Context) (h : Heap) :
    (ctxValue ctx CtxKey.loggingContextKey = none →
      (InitializeLoggingContext ctx h).1
          = ctxWithValue ctx CtxKey.loggingContextKey
              (CtxVal.logCtxRef h.logStores.length) ∧
      (InitializeLoggingContext ctx h).2.logGet h.logStores.length = some []) ∧
    ((ctxValue ctx CtxKey.loggingContextKey).isSome →
      InitializeLoggingContext ctx h = (ctx, h)) ∧
    (InitializeLoggingContext (InitializeLoggingContext ctx h).1
        (InitializeLoggingContext ctx h).2 = InitializeLoggingContext ctx h) ∧
    (ctxValue ctx CtxKey.middlewareMetricKey = none →
      (InitializeMetricsContext ctx h).1
          = ctxWithValue ctx CtxKey.middlewareMetricKey
              (CtxVal.metricCtxRef h.metricStores.length) ∧
      (InitializeMetricsContext ctx h).2.metricGet h.metricStores.length = some []) ∧
    ((ctxValue ctx CtxKey.middlewareMetricKey).isSome →
      InitializeMetricsContext ctx h = (ctx, h)) ∧
    (InitializeMetricsContext (InitializeMetricsContext ctx h).1
        (InitializeMetricsContext ctx h).2 = InitializeMetricsContext ctx h) := by
  refine ⟨?_, ?_, ?_, ?_, ?_, ?_⟩
  · intro hnone
    constructor
    · simp [InitializeLoggingContext, hnone]
    · simp [InitializeLoggingContext, hnone, Heap.logGet]
  · intro hsome
    simp [InitializeLoggingContext, hsome]
  · cases hc : ctxValue ctx CtxKey.loggingContextKey with
    | some v => simp [InitializeLoggingContext, hc]
    | none => simp [InitializeLoggingContext, hc, ctxWithValue, ctxValue]
  · intro hnone
    constructor
    · simp [InitializeMetricsContext, hnone]
    · simp [InitializeMetricsContext, hnone, Heap.metricGet]
  · intro hsome
    simp [InitializeMetricsContext, hsome]
  · cases hc : ctxValue ctx CtxKey.middlewareMetricKey with
    | some v => simp [InitializeMetricsContext, hc]
    | none => simp [InitializeMetricsContext, hc, ctxWithValue, ctxValue]

/-- The empty heap, for concrete runs. -/
def emptyHeap : Heap := { logStores := [], metricStores := [] }

/-- C4 witness: on a fresh context and heap the logging initializer
allocates store 0 and binds it. -/
theorem C4_witness :
    (InitializeLoggingContext [] emptyHeap).1
        = ctxWithValue [] CtxKey.loggingContextKey (CtxVal.logCtxRef 0) ∧
    (InitializeLoggingContext [] emptyHeap).2.logGet 0 = some [] :=
  (C4_initialize_idempotent [] emptyHeap).1 rfl

/-- C5: the retrieval operations are pure readers (their Go signatures
return no derived context, so reading can have no creation side effect);
they return the stored value when present and the absent indicator
(`nil` pointer / `nil` slice) when not. -/
theorem C5_retrieve_never_creates (ctx : Context) :
    (∀ i, ctxValue ctx CtxKey.loggingContextKey = some (CtxVal.logCtxRef i) →
        GetLoggingContext ctx = some i) ∧
    (ctxValue ctx CtxKey.loggingContextKey = none → GetLoggingContext ctx = none) ∧
    (∀ attrs, ctxValue ctx CtxKey.metricAttributesKey = some (CtxVal.attrList attrs) →
        GetMeretricAttributes ctx = attrs) ∧
    (ctxValue ctx CtxKey.metricAttributesKey = none → GetMeretricAttributes ctx = []) := by
  refine ⟨?_, ?_, ?_, ?_⟩
  · intro i hi
    simp [GetLoggingContext, hi]
  · intro hn
    simp [GetLoggingContext, hn]
  · intro attrs ha
    simp [GetMeretricAttributes, ha]
  · intro hn
    simp [GetMeretricAttributes, hn]

/-- A context carrying a logging store pointer, for the C5 witness. -/
def c5ctx : Context := [(CtxKey.loggingContextKey, CtxVal.logCtxRef 7)]

/-- C5 witness: on `c5ctx` retrieval returns the stored pointer, and the
metric-attribute reader returns the empty slice. -/
theorem C5_witness :
    GetLoggingContext c5ctx = some 7 ∧ GetMeretricAttributes c5ctx = [] :=
  ⟨(C5_retrieve_never_creates c5ctx).1 7 rfl,
   (C5_retrieve_never_creates c5ctx).2.2.2 rfl⟩

/-- C6: last-write-wins and key uniqueness.  For any store satisfying
the Go-map invariant and any (non-empty, per the data model) key, adding
`v1` then `v2` under the same key leaves exactly one entry for that key,
holding `v2` — in the `MetricContext` `GetAllAttributes` snapshot and in
the `LoggingContext` map alike — and in every `GetAllAttributes`
snapshot of such a store each key occurs at most once. -/
theorem C6_last_write_wins (s : Store) (k : String) (v1 v2 : AttrValue)
    (hu : keysUnique s) (hk : k ≠ "") :
    ((MetricContext.GetAllAttributes
        (MetricContext.AddAttribute (MetricContext.AddAttribute s (KeyValue.mk k v1))
          (KeyValue.mk k v2))).filter (fun kv => kv.key = k) = [KeyValue.mk k v2]) ∧
    ((LoggingContext.AddAttribute (LoggingContext.AddAttribute s k v1) k v2).filter
        (fun p => p.1 = k) = [(k, v2)]) ∧
    (∀ (s1 : Store) (k1 : String), keysUnique s1 →
      ((MetricContext.GetAllAttributes s1).filter (fun kv => kv.key = k1)).length ≤ 1) := by
  have hins : keysUnique (mapInsert s k v1) := keysUnique_mapInsert s k v1 hu
  have e1 : MetricContext.AddAttribute s (KeyValue.mk k v1) = mapInsert s k v1 := by
    simp [MetricContext.AddAttribute, hk]
  have e2 : MetricContext.AddAttribute (mapInsert s k v1) (KeyValue.mk k v2)
      = mapInsert (mapInsert s k v1) k v2 := by
    simp [MetricContext.AddAttribute, hk]
  refine ⟨?_, ?_, ?_⟩
  · rw [e1, e2, getAll_filter, filter_key_mapInsert _ _ _ hins]
    rfl
  · rw [LoggingContext.AddAttribute, LoggingContext.AddAttribute]
    exact filter_key_mapInsert _ _ _ hins
  · intro s1 k1 hu1
    rw [getAll_filter]
    simpa using filter_key_length_le_one s1 k1 hu1

/-- C6 witness: on the store `[("x", "0")]` and key `"a"`, the snapshot
after the two adds carries exactly `a = 2`. -/
theorem C6_witness :
    (MetricContext.GetAllAttributes
        (MetricContext.AddAttribute
          (MetricContext.AddAttribute [("x", AttrValue.str "0")]
            (KeyValue.mk "a" (AttrValue.int 1)))
          (KeyValue.mk "a" (AttrValue.int 2)))).filter (fun kv => kv.key = "a")
      = [KeyValue.mk "a" (AttrValue.int 2)] :=
  (C6_last_write_wins [("x", AttrValue.str "0")] "a" (AttrValue.int 1) (AttrValue.int 2)
    (by decide) (by decide)).1

/-- C9: no lost writes.  Each `Add` holds the store's write lock, so a
concurrent execution of N `Add` calls is some interleaving, i.e. the
calls applied in some permutation `σ` of the set `ops`.  For every such
schedule, when the N keys are distinct and non-empty, the subsequent
snapshot (`GetAllAttributes` for the metric store, `GetAttribute` for
the logging store) contains every one of the N entries. -/
theorem C9_no_lost_writes (ops σ : List (String × AttrValue))
    (hperm : σ.Perm ops) (hnd : (ops.map Prod.fst).Nodup)
    (hne : ∀ p ∈ ops, p.1 ≠ "") :
    ∀ p ∈ ops,
      KeyValue.mk p.1 p.2 ∈ MetricContext.GetAllAttributes
        (σ.foldl (fun m q => MetricContext.AddAttribute m (KeyValue.mk q.1 q.2)) []) ∧
      LoggingContext.GetAttribute
        (σ.foldl (fun m q => LoggingContext.AddAttribute m q.1 q.2) []) p.1
        = (some p.2, true) := by
  intro p hp
  have hnds : (σ.map Prod.fst).Nodup := ((hperm.map Prod.fst).nodup_iff).2 hnd
  have hps : p ∈ σ := hperm.mem_iff.2 hp
  have hnes : ∀ q ∈ σ, q.1 ≠ "" := fun q hq => hne q (hperm.subset hq)
  have hlook : storeLookup (σ.foldl (fun m q => mapInsert m q.1 q.2) []) p.1 = some p.2 :=
    storeLookup_foldl_of_mem σ [] p.1 p.2 hnds hps
  constructor
  · rw [foldl_metricAdd_eq_foldl_mapInsert σ [] hnes]
    exact List.mem_map_of_mem _ (mem_of_storeLookup _ _ _ hlook)
  · rw [foldl_logAdd_eq_foldl_mapInsert]
    simp [LoggingContext.GetAttribute, hlook]

/-- The set of adds and one interleaving of them, for the C9 witness. -/
def c9ops : List (String × AttrValue) := [("a", AttrValue.str "1"), ("b", AttrValue.int 2)]

def c9sched : List (String × AttrValue) := [("b", AttrValue.int 2), ("a", AttrValue.str "1")]

/-- C9 witness: with adds `a=1, b=2` executed in the reversed order, the
entry `a=1` is present in both stores' snapshots. -/
theorem C9_witness :
    KeyValue.mk "a" (AttrValue.str "1") ∈ MetricContext.GetAllAttributes
      (c9sched.foldl (fun m q => MetricContext.AddAttribute m (KeyValue.mk q.1 q.2)) []) ∧
    LoggingContext.GetAttribute
      (c9sched.foldl (fun m q => LoggingContext.AddAttribute m q.1 q.2) []) "a"
      = (some (AttrValue.str "1"), true) :=
  C9_no_lost_writes c9ops c9sched (by decide) (by decide) (by decide)
    ("a", AttrValue.str "1") (by decide)

/-- C10: `AddMeretricAttributes` stores the whole slice as one context
value, so a second call on the derived context shadows the first:
retrieval returns exactly the later slice, never the union. -/
theorem C10_addMeretric_replaces (ctx : Context) (a b : List KeyValue) :
    GetMeretricAttributes (AddMeretricAttributes (AddMeretricAttributes ctx a) b) = b ∧
    GetMeretricAttributes (AddMeretricAttributes ctx a) = a := by
  constructor <;>
    simp [GetMeretricAttributes, AddMeretricAttributes, ctxWithValue, ctxValue]

/-! ### Characterizations of the emitter middlewares -/

theorem MetricsMiddleware_ok (next : Handler) (req : Request) (st st1 : St)
    (hnext : next req st = Except.ok st1) :
    MetricsMiddleware next req st = Except.ok { st1 with events := st1.events ++
      [MetricEvent.counterAdd 1 (metricsDefaultAttrs req.method
          (if st1.chiPattern = "" then req.rawPath else st1.chiPattern) st1.status
          ++ GetMeretricAttributes req.ctx),
       MetricEvent.histogramRecord ((st1.clock : Int) - (st.clock : Int))
         (metricsDefaultAttrs req.method
          (if st1.chiPattern = "" then req.rawPath else st1.chiPattern) st1.status
          ++ GetMeretricAttributes req.ctx)] } := by
  simp [MetricsMiddleware, hnext]

/-- The single structured record `LoggingMiddleware` assembles for a
request whose inner chain finished in state `st1`. -/
def loggingRecordOf (req : Request) (st st1 : St) : LogRecord :=
  { requestId := getReqID req.ctx
    method := req.method
    url := req.url
    path := if st1.chiPattern = "" then req.rawPath else st1.chiPattern
    status := st1.status
    size := st1.bytes
    duration := (st1.clock : Int) - (st.clock : Int)
    remoteAddr := req.remoteAddr
    userAgent := req.userAgent
    extraFields := match GetLoggingContext req.ctx with
      | some i => LoggingContext.IterateAttributes ((st1.heap.logGet i).getD [])
      | none => []
    level := match ctxValue req.ctx CtxKey.logLevelKey with
      | some (CtxVal.levelVal LogLevel.error) => LogLevel.error
      | some (CtxVal.levelVal LogLevel.warn) => LogLevel.warn
      | _ => LogLevel.info }

theorem LoggingMiddleware_ok (next : Handler) (req : Request) (st st1 : St)
    (hnext : next req st = Except.ok st1) :
    LoggingMiddleware next req st = Except.ok { st1 with
      logs := st1.logs ++ [loggingRecordOf req st st1]
      warnings := if (GetLoggingContext req.ctx).isNone
        then st1.warnings ++ [missingLoggingCtxWarning]
        else st1.warnings } := by
  simp [LoggingMiddleware, hnext, loggingRecordOf]

theorem attrsFind_path (m p : String) (s : Nat) (rest : List KeyValue) :
    attrsFind (metricsDefaultAttrs m p s ++ rest) "http.path"
      = some (AttrValue.str p) := by
  simp [metricsDefaultAttrs, attrsFind]

/-! ### Claims C8, C7, C2, C1 -/

/-- C8: whenever the inner chain returns normally (and the wall clock is
monotone across it, which Go's monotonic clock guarantees for
`time.Since`), the metrics stage emits exactly one counter increment of
value 1 and exactly one duration observation, appended to the event
stream, both carrying the same merged attribute set, and the observed
duration is ≥ 0. -/
theorem C8_metrics_exactly_once (next : Handler) (req : Request) (st st1 : St)
    (hnext : next req st = Except.ok st1) (hclock : st.clock ≤ st1.clock) :
    ∃ attrs d,
      MetricsMiddleware next req st = Except.ok
        { st1 with events := st1.events ++
            [MetricEvent.counterAdd 1 attrs, MetricEvent.histogramRecord d attrs] } ∧
      0 ≤ d := by
  refine ⟨metricsDefaultAttrs req.method
      (if st1.chiPattern = "" then req.rawPath else st1.chiPattern) st1.status
      ++ GetMeretricAttributes req.ctx,
    (st1.clock : Int) - (st.clock : Int), ?_, ?_⟩
  · exact MetricsMiddleware_ok next req st st1 hnext
  · omega

/-- A handler that returns its state unchanged, for concrete runs. -/
def idHandler : Handler := fun _ st => Except.ok st

/-- C8 witness: the metrics stage around the identity handler emits
exactly the two events with a non-negative duration. -/
theorem C8_witness :
    ∃ attrs d,
      MetricsMiddleware idHandler c1req st0 = Except.ok
        { st0 with events := st0.events ++
            [MetricEvent.counterAdd 1 attrs, MetricEvent.histogramRecord d attrs] } ∧
      0 ≤ d :=
  C8_metrics_exactly_once idHandler c1req st0 st0 rfl (le_refl _)

/-- C7: the path label used by the post-handler stages — the
`http.path` attribute of both emitted metric events and the `path` field
of the emitted log record — equals the chi route template whenever the
router recorded one, and equals the raw request path verbatim when it
did not. -/
theorem C7_route_label (next : Handler) (req : Request) (st st1 st2 st3 : St)
    (hnext : next req st = Except.ok st1)
    (hm : MetricsMiddleware next req st = Except.ok st2)
    (hl : LoggingMiddleware next req st = Except.ok st3) :
    (st1.chiPattern ≠ "" →
      (∀ e ∈ st2.events.drop st1.events.length,
        attrsFind (eventAttrs e) "http.path" = some (AttrValue.str st1.chiPattern)) ∧
      (∀ lr ∈ st3.logs.drop st1.logs.length, lr.path = st1.chiPattern)) ∧
    (st1.chiPattern = "" →
      (∀ e ∈ st2.events.drop st1.events.length,
        attrsFind (eventAttrs e) "http.path" = some (AttrValue.str req.rawPath)) ∧
      (∀ lr ∈ st3.logs.drop st1.logs.length, lr.path = req.rawPath)) := by
  rw [MetricsMiddleware_ok next req st st1 hnext] at hm
  rw [LoggingMiddleware_ok next req st st1 hnext] at hl
  have hst2 := Except.ok.inj hm
  have hst3 := Except.ok.inj hl
  subst hst2
  subst hst3
  simp only [List.drop_left]
  constructor
  · intro hne
    rw [if_neg hne]
    constructor
    · intro e he
      rcases List.mem_cons.1 he with rfl | he1
      · exact attrsFind_path _ _ _ _
      · rcases List.mem_cons.1 he1 with rfl | he2
        · exact attrsFind_path _ _ _ _
        · simp at he2
    · intro lr hlr
      rcases List.mem_cons.1 hlr with rfl | hlr1
      · simp [loggingRecordOf, if_neg hne]
      · simp at hlr1
  · intro heq
    rw [if_pos heq]
    constructor
    · intro e he
      rcases List.mem_cons.1 he with rfl | he1
      · exact attrsFind_path _ _ _ _
      · rcases List.mem_cons.1 he1 with rfl | he2
        · exact attrsFind_path _ _ _ _
        · simp at he2
    · intro lr hlr
      rcases List.mem_cons.1 hlr with rfl | hlr1
      · simp [loggingRecordOf, if_pos heq]
      · simp at hlr1

/-- A state in which the router has recorded `/hello/{id}`. -/
def c7st : St := { st0 with chiPattern := "/hello/{id}" }

/-- The attribute set of the counter event the metrics stage emits in the
C7 witness run. -/
def c7attrs : List KeyValue :=
  [KeyValue.mk "http.method" (AttrValue.str "GET"),
   KeyValue.mk "http.path" (AttrValue.str "/hello/{id}"),
   KeyValue.mk "http.status_code" (AttrValue.int 0)]

/-- C7 witness: with the template recorded, the counter event emitted by
the metrics stage carries `http.path = /hello/{id}`. -/
theorem C7_witness :
    attrsFind (eventAttrs (MetricEvent.counterAdd 1 c7attrs)) "http.path"
      = some (AttrValue.str "/hello/{id}") :=
  ((C7_route_label idHandler c1req c7st c7st
      ((MetricsMiddleware idHandler c1req c7st).toOption.getD c7st)
      ((LoggingMiddleware idHandler c1req c7st).toOption.getD c7st)
      rfl (by rfl) (by rfl)).1 (by decide)).1
    (MetricEvent.counterAdd 1 c7attrs) (by decide)

/-- A request whose context carries no attribute store at all. -/
def c2req : Request :=
  { method := "GET"
    rawPath := "/hello/7"
    url := "/hello/7"
    remoteAddr := "10.0.0.1:40000"
    userAgent := "curl/8.5.0"
    ctx := [] }

/-- C2, counterexample: the claim says EVERY pipeline stage, on a missing
store, logs a warning, proceeds with defaults and never panics; but the
trace-enrichment stage (tracing.go:21-25) calls `AddAttribute` on the
`nil` result of `GetLoggingContext` without a check, so with no store in
the context it dereferences a nil receiver and panics instead of warning
and proceeding. -/
theorem C2_counterexample :
    TracingMiddleware "t0" (AttrValue.str "s0") idHandler c2req st0
      = Except.error nilDerefMsg := by
  rfl

/-- C2, amended: when no store is present, the logging stage logs the
warning once, emits its record with only the default fields and does not
panic; the metrics stage proceeds with only the default attributes but
logs no warning; and the trace-enrichment stage (like the handler's own
store access) dereferences the missing store and panics. -/
theorem C2_missing_store_amended (tid : String) (sid : AttrValue)
    (next : Handler) (req : Request) (st st1 : St)
    (habsent : GetLoggingContext req.ctx = none)
    (hmetr : ctxValue req.ctx CtxKey.metricAttributesKey = none)
    (hnext : next req st = Except.ok st1) :
    (∃ entry, LoggingMiddleware next req st = Except.ok
        { st1 with logs := st1.logs ++ [entry]
                   warnings := st1.warnings ++ [missingLoggingCtxWarning] } ∧
      entry.extraFields = []) ∧
    TracingMiddleware tid sid next req st = Except.error nilDerefMsg ∧
    (∃ d, MetricsMiddleware next req st = Except.ok
        { st1 with events := st1.events ++
            [MetricEvent.counterAdd 1 (metricsDefaultAttrs req.method
                (if st1.chiPattern = "" then req.rawPath else st1.chiPattern) st1.status),
             MetricEvent.histogramRecord d (metricsDefaultAttrs req.method
                (if st1.chiPattern = "" then req.rawPath else st1.chiPattern) st1.status)] }) := by
  have hga : GetMeretricAttributes req.ctx = [] := by
    simp [GetMeretricAttributes, hmetr]
  refine ⟨⟨loggingRecordOf req st st1, ?_, ?_⟩, ?_, ?_⟩
  · rw [LoggingMiddleware_ok next req st st1 hnext, habsent]
    simp
  · simp [loggingRecordOf, habsent]
  · simp [TracingMiddleware, habsent]
  · refine ⟨(st1.clock : Int) - (st.clock : Int), ?_⟩
    rw [MetricsMiddleware_ok next req st st1 hnext, hga]
    simp

/-- C2 witness: the amended behavior of the logging stage at a concrete
store-less request. -/
theorem C2_witness :
    ∃ entry, LoggingMiddleware idHandler c2req st0 = Except.ok
        { st0 with logs := st0.logs ++ [entry]
                   warnings := st0.warnings ++ [missingLoggingCtxWarning] } ∧
      entry.extraFields = [] :=
  (C2_missing_store_amended "t" (AttrValue.str "s") idHandler c2req st0 st0
    rfl rfl rfl).1

/-- C1: the evaluation of the deployed chain of main.go on the spec's
scenario `GET /hello/42`.  The handler's `user_id=12345` lands in the
*logging* store, and the metric attributes it registers through
`metrics.AddMeretricAttributes` live in a derived context that dies with
the handler's local variable (`r = r.WithContext(ctx)` rebinds a local),
so the metrics stage emits both events with ONLY the three default
attributes — the emitted attribute set contains no `user_id`,
contradicting the claimed merged set. -/
theorem C1_metrics_missing_handler_attrs :
    helloRunEvents = [MetricEvent.counterAdd 1 c1defaults,
                      MetricEvent.histogramRecord 300 c1defaults] ∧
    attrsFind c1defaults "user_id" = none ∧
    (c1defaults.map KeyValue.key).contains "user_id" = false := by
  refine ⟨?_, ?_, ?_⟩ <;> rfl
